import Mathlib

/-!
Verification development for the `ShippingInfo` cart component
(`apps/core/app/[locale]/(default)/cart/_components/shipping-info.tsx`).

The component keeps view-local form state via a merging reducer, fetches the
state/province list when the selected country changes (a `useEffect` keyed on
the country value), renders the state field as a select when the list is
present and as a free-text input when it is `null`, and submits the form to a
server action, showing an error toast on failure.

We embed the data model and every handler of the component as executable Lean
definitions, and a small event-step machine tying them together so that
temporal claims (fetch triggering, resets, toasts, in-flight invariants) can
be stated over event traces.
-/

namespace ShippingForm

/-- One record of the `StatesList` payload returned by `getShippingStates`. -/
structure StateRec where
  id : Nat
  state : String
  state_abbreviation : String
  country_id : Nat
  deriving DecidableEq, Repr

/-- The component's `FormValues` state: `states` is `none` when the TSX value
is `null` (lookup failed) and `some l` when it is a list `l`. -/
structure FormValues where
  country : String
  states : Option (List StateRec)
  state : String
  city : String
  postcode : String
  deriving DecidableEq, Repr

/-- An argument to the `setFormValues` reducer dispatch: a record of optional
fields, mirroring `Partial<FormValues>` (a field is `none` when the TSX
update object omits it). -/
structure FormUpdate where
  country : Option String
  states : Option (Option (List StateRec))
  state : Option String
  city : Option String
  postcode : Option String
  deriving DecidableEq, Repr

/-- The update object with every field omitted. -/
def FormUpdate.empty : FormUpdate :=
  ⟨none, none, none, none, none⟩

/-- The reducer passed to `useReducer`: spread-merge of the update into the
current values (`{ ...currentValues, ...newValues }`). -/
def setFormValues (cur : FormValues) (upd : FormUpdate) : FormValues where
  country := upd.country.getD cur.country
  states := upd.states.getD cur.states
  state := upd.state.getD cur.state
  city := upd.city.getD cur.city
  postcode := upd.postcode.getD cur.postcode

/-- Result status of the server actions (`getShippingStates`,
`submitShippingInfo`). -/
inductive ActionStatus where
  | success
  | error
  deriving DecidableEq, Repr

/-- The `{ status, data }` shape destructured from `getShippingStates`;
`data` is `none` when the TSX value is `null`/`undefined`. -/
structure StatesResult where
  status : ActionStatus
  data : Option (List StateRec)
  deriving DecidableEq, Repr

/-- The new `states` value written by the `fetchStates` continuation:
`if (status === 'success' && data) { states: data } else { states: null }`.
An empty array is truthy in JS, so `data = some []` takes the first branch. -/
def fetchStatesNewStates (r : StatesResult) : Option (List StateRec) :=
  if r.status = ActionStatus.success ∧ r.data.isSome then r.data else none

/-- Split a character sequence at a separator character, keeping empty
parts, exactly as JS `split` with a one-character separator does
(`''.split('-')` is `['']`, `'US--3'.split('-')` is `['US', '', '3']`). -/
def splitChars (sep : Char) : List Char → List (List Char)
  | [] => [[]]
  | c :: cs =>
    match splitChars sep cs with
    | [] => if c = sep then [[], [c]] else [[c]]
    | p :: ps => if c = sep then [] :: p :: ps else (c :: p) :: ps

/-- `value.split('-')[1]`: indexing out of range yields `undefined` (`none`). -/
def countryIdPart (value : String) : Option String :=
  ((splitChars '-' value.data).map String.mk).get? 1

/-- JS truthiness of an optional string: `undefined` and `''` are falsy. -/
def truthyStr : Option String → Bool
  | none => false
  | some s => s != ""

/-- `Number(s)` restricted to what the component feeds it (the id suffix of
a select value): a non-empty all-digit string denotes its decimal value,
anything else there is NaN (`none`). -/
def jsNumberNat (s : String) : Option Nat :=
  if s.data ≠ [] ∧ s.data.all Char.isDigit then
    some (s.data.foldl (fun n c => 10 * n + (c.toNat - '0'.toNat)) 0)
  else none

/-- The body of the country `useEffect`: when the country value is non-empty
and its `split('-')[1]` part is truthy, a single `getShippingStates` call is
issued with `Number(countryId)`; the result is `some arg` exactly when a
fetch fires, carrying the argument passed to the action. -/
def countryEffectFetch (country : String) : Option (Option Nat) :=
  if country != "" then
    let countryId := countryIdPart country
    if truthyStr countryId then some (jsNumberNat (countryId.getD "")) else none
  else none

/-- A shipping country from `getShippingCountries`. -/
structure ShippingCountry where
  id : Nat
  countryCode : String
  name : String
  deriving DecidableEq, Repr

/-- The select item value rendered for a country: `` `${countryCode}-${id}` ``. -/
def countryItemValue (co : ShippingCountry) : String :=
  co.countryCode ++ "-" ++ toString co.id

/-- The consignment address fields the component reads; the three optional
fields model nullable GraphQL strings. -/
structure Address where
  countryCode : String
  stateOrProvince : Option String
  city : Option String
  postalCode : Option String
  deriving DecidableEq, Repr

/-- A shipping consignment; `selectedShippingOption` is kept only up to
presence, which is all the component tests. -/
structure Consignment where
  entityId : String
  selectedShippingOption : Option Unit
  address : Address
  deriving DecidableEq, Repr

/-- A physical line item of the cart. -/
structure PhysicalItem where
  entityId : String
  quantity : Nat
  deriving DecidableEq, Repr

/-- The cart slice the component reads (`cart.lineItems.physicalItems`). -/
structure Cart where
  physicalItems : List PhysicalItem
  deriving DecidableEq, Repr

/-- The checkout prop slice the component reads. -/
structure Checkout where
  entityId : String
  cart : Option Cart
  shippingConsignments : Option (List Consignment)
  deriving DecidableEq, Repr

/-- `checkout.shippingConsignments?.find(c => c.selectedShippingOption) ||
checkout.shippingConsignments?.[0]`: optional chaining is `Option.bind`, and
`||` between optional objects is `Option.orElse`. -/
def shippingConsignment (ck : Checkout) : Option Consignment :=
  (ck.shippingConsignments.bind
      (fun l => l.find? (fun c => c.selectedShippingOption.isSome))).orElse
    (fun _ => ck.shippingConsignments.bind (fun l => l.head?))

/-- `shippingCountries.find(country => country.countryCode ===
shippingConsignment?.address.countryCode)`: the right side is an optional
string, and `===` against `undefined` is false for every string. -/
def selectedShippingCountry (ck : Checkout) (cs : List ShippingCountry) :
    Option ShippingCountry :=
  cs.find? (fun co =>
    some co.countryCode == (shippingConsignment ck).map (fun c => c.address.countryCode))

/-- The `useReducer` initial state of the component. -/
def initialFormValues (ck : Checkout) (cs : List ShippingCountry) : FormValues where
  country :=
    match selectedShippingCountry ck cs with
    | some co => co.countryCode ++ "-" ++ toString co.id
    | none => ""
  states := some []
  state := ((shippingConsignment ck).bind (fun c => c.address.stateOrProvince)).getD ""
  city := ((shippingConsignment ck).bind (fun c => c.address.city)).getD ""
  postcode := ((shippingConsignment ck).bind (fun c => c.address.postalCode)).getD ""

/-- One `{ lineItemEntityId, quantity }` pair of the submission payload. -/
structure SubmitLineItem where
  lineItemEntityId : String
  quantity : Nat
  deriving DecidableEq, Repr

/-- The second argument object passed to `submitShippingInfo`. -/
structure SubmitArgs where
  checkoutId : String
  lineItems : List SubmitLineItem
  shippingId : String
  deriving DecidableEq, Repr

/-- The argument object built in `onSubmit`: `checkout.entityId`,
`checkout.cart?.lineItems.physicalItems.map(...) || []`, and
`shippingConsignment?.entityId ?? ''`. -/
def submitArgs (ck : Checkout) : SubmitArgs where
  checkoutId := ck.entityId
  lineItems :=
    (ck.cart.map (fun cart =>
      cart.physicalItems.map (fun it =>
        { lineItemEntityId := it.entityId, quantity := it.quantity }))).getD []
  shippingId := ((shippingConsignment ck).map (fun c => c.entityId)).getD ""

/-- How the state field is rendered: a select (disabled when the option list
is empty) when `formValues.states !== null`, a free-text input otherwise. -/
inductive StateFieldControl where
  | select (disabled : Bool) (options : List StateRec)
  | textInput
  deriving DecidableEq, Repr

/-- The conditional around the state `FieldControl` in the JSX. -/
def stateFieldControl (fv : FormValues) : StateFieldControl :=
  match fv.states with
  | some l => StateFieldControl.select (l.length == 0) l
  | none => StateFieldControl.textInput

/-! ## Event-step machine

The component is reactive; to state temporal claims we run its handlers on a
state that pairs the form values with the multiset of in-flight
`getShippingStates` calls (the effect never cancels a previous fetch, so
several can be pending at once). Steps also emit the externally visible
actions (network calls, the error toast, `hideShippingOptions`). -/

/-- Component state: the form values plus the arguments of the in-flight
`getShippingStates` calls, in issue order. -/
structure CompState where
  fv : FormValues
  pending : List (Option Nat)
  deriving DecidableEq, Repr

/-- User / environment events driving the component. A `formSubmit` carries
the status with which the `submitShippingInfo` call resolves; a
`fetchResolved idx r` resolves the `idx`-th in-flight states fetch with `r`. -/
inductive Event where
  | selectCountry (value : String)
  | fetchResolved (idx : Nat) (result : StatesResult)
  | editState (value : String)
  | editCity (value : String)
  | editPostcode (value : String)
  | formSubmit (result : ActionStatus)
  deriving DecidableEq, Repr

/-- Externally visible actions a step emits. -/
inductive Action where
  | callGetShippingStates (arg : Option Nat)
  | callSubmitShippingInfo (args : SubmitArgs)
  | toastError
  | hideShippingOptions
  deriving DecidableEq, Repr

/-- The `states: [], state: '', city: '', postcode: ''` reset object of
`resetFormFieldsOnCountryChange`. -/
def resetUpdate : FormUpdate :=
  { FormUpdate.empty with
    states := some (some []), state := some "", city := some "", postcode := some "" }

/-- The `onValueChange` handler of the country select followed by the
country `useEffect`. The handler stores `value` when `value.split('-')[1]` is
truthy and `''` otherwise, then `resetFormFieldsOnCountryChange` tests the
pre-dispatch `formValues.country` (its closure value). The effect is keyed on
`formValues.country`, so it re-runs — and can issue a fetch — only when the
resulting country differs from the previous one. -/
def selectCountryStep (s : CompState) (value : String) : CompState × List Action :=
  let fv1 :=
    if truthyStr (countryIdPart value) then
      setFormValues s.fv { FormUpdate.empty with country := some value }
    else
      setFormValues s.fv { FormUpdate.empty with country := some "" }
  let doReset := s.fv.country != ""
  let fv2 := if doReset then setFormValues fv1 resetUpdate else fv1
  let hideActs : List Action := if doReset then [Action.hideShippingOptions] else []
  if fv2.country != s.fv.country then
    match countryEffectFetch fv2.country with
    | some arg =>
        (⟨fv2, s.pending ++ [arg]⟩, hideActs ++ [Action.callGetShippingStates arg])
    | none => (⟨fv2, s.pending⟩, hideActs)
  else (⟨fv2, s.pending⟩, hideActs)

/-- One step of the component on an event. `fetchResolved` with an
out-of-range index is a stutter step. -/
def step (ck : Checkout) (s : CompState) (e : Event) : CompState × List Action :=
  match e with
  | Event.selectCountry v => selectCountryStep s v
  | Event.fetchResolved idx r =>
      if idx < s.pending.length then
        (⟨setFormValues s.fv { FormUpdate.empty with states := some (fetchStatesNewStates r) },
          s.pending.eraseIdx idx⟩, [])
      else (s, [])
  | Event.editState v =>
      (⟨setFormValues s.fv { FormUpdate.empty with state := some v }, s.pending⟩, [])
  | Event.editCity v =>
      (⟨setFormValues s.fv { FormUpdate.empty with city := some v }, s.pending⟩, [])
  | Event.editPostcode v =>
      (⟨setFormValues s.fv { FormUpdate.empty with postcode := some v }, s.pending⟩, [])
  | Event.formSubmit st =>
      (s, Action.callSubmitShippingInfo (submitArgs ck) ::
        (if st = ActionStatus.error then [Action.toastError] else []))

/-- The state right after mount: the initial reducer state, plus the fetch
issued by the effect's first run when the initial country value carries an id. -/
def initState (ck : Checkout) (cs : List ShippingCountry) : CompState :=
  match countryEffectFetch (initialFormValues ck cs).country with
  | some arg => ⟨initialFormValues ck cs, [arg]⟩
  | none => ⟨initialFormValues ck cs, []⟩

/-- Run the machine over a list of events. -/
def run (ck : Checkout) (s : CompState) (evs : List Event) : CompState :=
  evs.foldl (fun t e => (step ck t e).1) s

/-- An event is UI-producible when any country value it selects parses to an
id part, as every rendered option value `` `${countryCode}-${id}` `` does. -/
def selectableEvent : Event → Bool
  | Event.selectCountry v => truthyStr (countryIdPart v)
  | _ => true

/-! ## Spec-side definitions

For the refinement claims these follow the words of the claim being checked,
to be compared against the definitions read off the source above. -/

/-- Claim wording: "the first shipping consignment having a
`selectedShippingOption`, or otherwise the first consignment". -/
def claimPrefilledConsignment (ck : Checkout) : Option Consignment :=
  match ck.shippingConsignments with
  | none => none
  | some l =>
    match l.find? (fun c => c.selectedShippingOption.isSome) with
    | some c => some c
    | none => l.head?

/-- Claim wording: "the initial country value is `<countryCode>-<id>` for
the entry of `shippingCountries` whose `countryCode` equals that
consignment's address `countryCode` (the empty string when no match or no
consignment exists)". -/
def claimInitialCountry (ck : Checkout) (cs : List ShippingCountry) : String :=
  match claimPrefilledConsignment ck with
  | none => ""
  | some cons =>
    match cs.find? (fun co => co.countryCode == cons.address.countryCode) with
    | none => ""
    | some co => co.countryCode ++ "-" ++ toString co.id

/-- Claim wording: "state … initialized from that consignment's address
fields or the empty string". -/
def claimInitialState (ck : Checkout) : String :=
  match claimPrefilledConsignment ck with
  | some cons => cons.address.stateOrProvince.getD ""
  | none => ""

/-- Claim wording: "city … initialized from that consignment's address
fields or the empty string". -/
def claimInitialCity (ck : Checkout) : String :=
  match claimPrefilledConsignment ck with
  | some cons => cons.address.city.getD ""
  | none => ""

/-- Claim wording: "postcode … initialized from that consignment's address
fields or the empty string". -/
def claimInitialPostcode (ck : Checkout) : String :=
  match claimPrefilledConsignment ck with
  | some cons => cons.address.postalCode.getD ""
  | none => ""

/-- Claim wording for the submission payload: "the checkout's `entityId` as
`checkoutId`, the checkout cart's physical line items mapped to pairs of
`lineItemEntityId` and `quantity` (the empty list when the cart is absent),
and the selected shipping consignment's `entityId` as `shippingId` (the
empty string when no consignment exists)". -/
def claimSubmitArgs (ck : Checkout) : SubmitArgs where
  checkoutId := ck.entityId
  lineItems :=
    match ck.cart with
    | some cart =>
        cart.physicalItems.map (fun it =>
          { lineItemEntityId := it.entityId, quantity := it.quantity })
    | none => []
  shippingId :=
    match shippingConsignment ck with
    | some cons => cons.entityId
    | none => ""

/-- The invariant tying the in-flight fetches to the form state: a fetch can
only be outstanding with the loading placeholder `[]` in `states`, and an
empty country value has neither an outstanding fetch nor a fetched list. -/
def statesInv (s : CompState) : Prop :=
  (s.fv.country = "" → s.pending = [] ∧ s.fv.states = some []) ∧
  (s.pending ≠ [] → s.fv.states = some [])

/-- A `getShippingStates` call action. -/
def Action.isStatesCall : Action → Bool
  | Action.callGetShippingStates _ => true
  | _ => false

/-! ## Helper lemmas -/

theorem setFormValues_country_only (cur : FormValues) (v : String) :
    setFormValues cur { FormUpdate.empty with country := some v } =
      { cur with country := v } := by
  simp [setFormValues, FormUpdate.empty]

theorem setFormValues_states_only (cur : FormValues) (st : Option (List StateRec)) :
    setFormValues cur { FormUpdate.empty with states := some st } =
      { cur with states := st } := by
  simp [setFormValues, FormUpdate.empty]

theorem setFormValues_reset (cur : FormValues) :
    setFormValues cur resetUpdate =
      { cur with states := some [], state := "", city := "", postcode := "" } := by
  simp [setFormValues, resetUpdate, FormUpdate.empty]

theorem truthy_country_ne_empty {v : String} (h : truthyStr (countryIdPart v) = true) :
    v ≠ "" := by
  intro hv
  subst hv
  exact absurd h (by decide)

theorem fetchStatesNewStates_of_failure {r : StatesResult}
    (h : ¬(r.status = ActionStatus.success ∧ r.data.isSome = true)) :
    fetchStatesNewStates r = none := by
  unfold fetchStatesNewStates
  rw [if_neg]
  intro hc
  exact h ⟨hc.1, hc.2⟩

theorem selectCountryStep_fv (s : CompState) (v : String) :
    (selectCountryStep s v).1.fv =
      if s.fv.country != "" then
        { s.fv with
            country := if truthyStr (countryIdPart v) then v else "",
            states := some [], state := "", city := "", postcode := "" }
      else
        { s.fv with country := if truthyStr (countryIdPart v) then v else "" } := by
  rcases htr : truthyStr (countryIdPart v) with _ | _ <;>
    rcases hr : s.fv.country != "" with _ | _ <;>
    simp only [selectCountryStep, htr, hr, Bool.false_eq_true, Bool.true_eq_false,
      if_true, if_false, ite_true, ite_false, setFormValues_country_only,
      setFormValues_reset] <;>
    split <;>
    first
      | rfl
      | (split <;> rfl)

theorem selectCountryStep_hide_of_reset (s : CompState) (v : String)
    (h : s.fv.country ≠ "") :
    Action.hideShippingOptions ∈ (selectCountryStep s v).2 := by
  have hr : (s.fv.country != "") = true := by simpa using h
  simp only [selectCountryStep, hr, if_true, ite_true]
  repeat' split
  all_goals simp

theorem selectCountryStep_no_hide (s : CompState) (v : String)
    (h : s.fv.country = "") :
    Action.hideShippingOptions ∉ (selectCountryStep s v).2 := by
  have hr : (s.fv.country != "") = false := by simp [h]
  simp only [selectCountryStep, hr, Bool.false_eq_true, if_false, ite_false]
  repeat' split
  all_goals simp

theorem statesInv_of_eq {s t : CompState} (h1 : t.fv.country = s.fv.country)
    (h2 : t.fv.states = s.fv.states) (h3 : t.pending = s.pending)
    (h : statesInv s) : statesInv t := by
  unfold statesInv at h ⊢
  rw [h1, h2, h3]
  exact h

theorem statesInv_init (ck : Checkout) (cs : List ShippingCountry) :
    statesInv (initState ck cs) := by
  unfold statesInv initState
  cases hcf : countryEffectFetch (initialFormValues ck cs).country with
  | some arg =>
    refine ⟨fun hc => ?_, fun _ => rfl⟩
    exfalso
    rw [show (initialFormValues ck cs).country = "" from hc] at hcf
    simp [countryEffectFetch] at hcf
  | none => exact ⟨fun _ => ⟨rfl, rfl⟩, fun h => absurd rfl h⟩

theorem statesInv_step (ck : Checkout) (s : CompState) (e : Event)
    (hinv : statesInv s) (hsel : selectableEvent e = true)
    (hpre : s.pending.length ≤ 1) :
    statesInv (step ck s e).1 := by
  obtain ⟨hempty, hpend⟩ := hinv
  cases e with
  | selectCountry v =>
    have htr : truthyStr (countryIdPart v) = true := by simpa [selectableEvent] using hsel
    have hv : v ≠ "" := truthy_country_ne_empty htr
    have hfv := selectCountryStep_fv s v
    rw [htr] at hfv
    simp only [ite_true, if_true] at hfv
    have hcountry : (step ck s (Event.selectCountry v)).1.fv.country = v := by
      show (selectCountryStep s v).1.fv.country = v
      rw [hfv]
      split <;> rfl
    have hstates : (step ck s (Event.selectCountry v)).1.fv.states = some [] := by
      show (selectCountryStep s v).1.fv.states = some []
      rw [hfv]
      rcases hr : s.fv.country != "" with _ | _
      · have hr' : s.fv.country = "" := by simpa using hr
        simp [(hempty hr').2]
      · simp
    refine ⟨fun hc => ?_, fun _ => hstates⟩
    rw [hcountry] at hc
    exact absurd hc hv
  | fetchResolved idx r =>
    by_cases hidx : idx < s.pending.length
    · have hp : s.pending ≠ [] := by
        intro h0
        rw [h0] at hidx
        simp at hidx
      constructor
      · intro hc
        exfalso
        have hcountry : (step ck s (Event.fetchResolved idx r)).1.fv.country =
            s.fv.country := by
          simp [step, hidx, setFormValues_states_only]
        rw [hcountry] at hc
        exact hp (hempty hc).1
      · intro hpend'
        exfalso
        have he : (step ck s (Event.fetchResolved idx r)).1.pending =
            s.pending.eraseIdx idx := by
          simp [step, hidx]
        rw [he] at hpend'
        apply hpend'
        apply List.length_eq_zero.mp
        rw [List.length_eraseIdx s.pending idx, if_pos hidx]
        omega
    · have hey : (step ck s (Event.fetchResolved idx r)).1 = s := by simp [step, hidx]
      rw [hey]
      exact ⟨hempty, hpend⟩
  | editState v =>
    exact statesInv_of_eq (by simp [step, setFormValues, FormUpdate.empty])
      (by simp [step, setFormValues, FormUpdate.empty]) (by simp [step]) ⟨hempty, hpend⟩
  | editCity v =>
    exact statesInv_of_eq (by simp [step, setFormValues, FormUpdate.empty])
      (by simp [step, setFormValues, FormUpdate.empty]) (by simp [step]) ⟨hempty, hpend⟩
  | editPostcode v =>
    exact statesInv_of_eq (by simp [step, setFormValues, FormUpdate.empty])
      (by simp [step, setFormValues, FormUpdate.empty]) (by simp [step]) ⟨hempty, hpend⟩
  | formSubmit st =>
    exact statesInv_of_eq rfl rfl rfl ⟨hempty, hpend⟩

theorem statesInv_run (ck : Checkout) :
    ∀ (evs : List Event) (s : CompState),
      statesInv s →
      (∀ e ∈ evs, selectableEvent e = true) →
      (∀ i : Nat, (run ck s (evs.take i)).pending.length ≤ 1) →
      statesInv (run ck s evs) := by
  intro evs
  induction evs with
  | nil => intro s h _ _; exact h
  | cons e evs ih =>
    intro s hinv hsel hbound
    have h0 : s.pending.length ≤ 1 := by
      have := hbound 0
      simpa [run] using this
    have h1 : statesInv (step ck s e).1 :=
      statesInv_step ck s e hinv (hsel e (by simp)) h0
    show statesInv (run ck (step ck s e).1 evs)
    apply ih _ h1
    · intro e' he'
      exact hsel e' (by simp [he'])
    · intro i
      have hb := hbound (i + 1)
      rw [List.take_succ_cons] at hb
      exact hb

theorem states_none_source (ck : Checkout) (s : CompState) (e : Event)
    (h : (step ck s e).1.fv.states = none) :
    s.fv.states = none ∨
    ∃ idx r, e = Event.fetchResolved idx r ∧
      ¬(r.status = ActionStatus.success ∧ r.data.isSome = true) := by
  cases e with
  | selectCountry v =>
    left
    have hfv := selectCountryStep_fv s v
    rw [show (step ck s (Event.selectCountry v)).1.fv = (selectCountryStep s v).1.fv from rfl,
      hfv] at h
    revert h
    split
    · intro h
      simp at h
    · intro h
      exact h
  | fetchResolved idx r =>
    by_cases hidx : idx < s.pending.length
    · by_cases hok : r.status = ActionStatus.success ∧ r.data.isSome = true
      · exfalso
        have hst : (step ck s (Event.fetchResolved idx r)).1.fv.states =
            fetchStatesNewStates r := by
          simp [step, hidx, setFormValues_states_only]
        rw [hst] at h
        unfold fetchStatesNewStates at h
        rw [if_pos ⟨hok.1, hok.2⟩] at h
        rcases Option.isSome_iff_exists.mp hok.2 with ⟨x, hx⟩
        rw [hx] at h
        exact Option.noConfusion h
      · exact Or.inr ⟨idx, r, rfl, hok⟩
    · left
      have hey : (step ck s (Event.fetchResolved idx r)).1 = s := by simp [step, hidx]
      rw [hey] at h
      exact h
  | editState v =>
    left
    simpa [step, setFormValues, FormUpdate.empty] using h
  | editCity v =>
    left
    simpa [step, setFormValues, FormUpdate.empty] using h
  | editPostcode v =>
    left
    simpa [step, setFormValues, FormUpdate.empty] using h
  | formSubmit st =>
    left
    exact h

/-! ## Claims -/

/-- C1: every completed state-fetch whose result is not a success carrying
data (status not `'success'` or `data` absent) sets the `states` field of
the form state to `null`, and whenever `states` is `null` the state field is
rendered as a free-text input rather than a select. -/
theorem fetch_failure_nulls_states_and_falls_back_to_text_input :
    (∀ r : StatesResult,
      ¬(r.status = ActionStatus.success ∧ r.data.isSome = true) →
      fetchStatesNewStates r = none) ∧
    (∀ (ck : Checkout) (s : CompState) (idx : Nat) (r : StatesResult),
      idx < s.pending.length →
      ¬(r.status = ActionStatus.success ∧ r.data.isSome = true) →
      (step ck s (Event.fetchResolved idx r)).1.fv.states = none) ∧
    (∀ fv : FormValues, fv.states = none →
      stateFieldControl fv = StateFieldControl.textInput) := by
  refine ⟨fun r h => fetchStatesNewStates_of_failure h, ?_, ?_⟩
  · intro ck s idx r hidx h
    simp [step, hidx, setFormValues_states_only, fetchStatesNewStates_of_failure h]
  · intro fv h
    simp [stateFieldControl, h]

/-- C1 witness: a concrete failed fetch (`status = 'error'`) resolving into
a concrete pending state nulls `states`, and a concrete null-`states` form
renders the text input. -/
theorem fetch_failure_nulls_states_witness :
    fetchStatesNewStates ⟨ActionStatus.error, some [⟨10, "Alabama", "AL", 1⟩]⟩ = none ∧
    (step ⟨"chk-1", none, none⟩ ⟨⟨"US-1", some [], "", "", ""⟩, [some 1]⟩
        (Event.fetchResolved 0 ⟨ActionStatus.error, some [⟨10, "Alabama", "AL", 1⟩]⟩)).1.fv.states
      = none ∧
    stateFieldControl ⟨"US-1", none, "", "", ""⟩ = StateFieldControl.textInput :=
  ⟨fetch_failure_nulls_states_and_falls_back_to_text_input.1 _ (by decide),
   fetch_failure_nulls_states_and_falls_back_to_text_input.2.1
     ⟨"chk-1", none, none⟩ ⟨⟨"US-1", some [], "", "", ""⟩, [some 1]⟩ 0 _
     (by decide) (by decide),
   fetch_failure_nulls_states_and_falls_back_to_text_input.2.2 _ rfl⟩

/-- C2 counterexample: a state-fetch succeeding with the empty list `[]`
(truthy in JS) stores `states = []`, which renders a select, not the
free-text input the claim asserts. Shown on a concrete pending state. -/
theorem empty_states_select_counterexample :
    ¬ (∀ (ck : Checkout) (s : CompState) (idx : Nat),
        idx < s.pending.length →
        stateFieldControl
            (step ck s (Event.fetchResolved idx ⟨ActionStatus.success, some []⟩)).1.fv =
          StateFieldControl.textInput) := by
  intro h
  have hc := h ⟨"chk-1", none, none⟩ ⟨⟨"US-1", some [], "", "", ""⟩, [some 1]⟩ 0 (by decide)
  exact absurd hc (by decide)

/-- C2 (amended): for every selected country whose state-fetch succeeds with
an empty list of subdivisions, the state field is rendered as a select that
is disabled and offers no options; only a failed fetch (`states = null`)
falls back to the free-text input. -/
theorem empty_states_renders_disabled_select
    (ck : Checkout) (s : CompState) (idx : Nat) (hidx : idx < s.pending.length) :
    stateFieldControl
        (step ck s (Event.fetchResolved idx ⟨ActionStatus.success, some []⟩)).1.fv =
      StateFieldControl.select true [] := by
  simp [step, hidx, setFormValues_states_only, fetchStatesNewStates, stateFieldControl]

/-- C2 witness: the amended rendering on a concrete pending state. -/
theorem empty_states_renders_disabled_select_witness :
    stateFieldControl
        (step ⟨"chk-1", none, none⟩ ⟨⟨"US-1", some [], "", "", ""⟩, [some 1]⟩
          (Event.fetchResolved 0 ⟨ActionStatus.success, some []⟩)).1.fv =
      StateFieldControl.select true [] :=
  empty_states_renders_disabled_select ⟨"chk-1", none, none⟩
    ⟨⟨"US-1", some [], "", "", ""⟩, [some 1]⟩ 0 (by decide)

/-- C3: for every form submission, the error toast is emitted if and only if
`submitShippingInfo` resolves with status `'error'`; on success no toast is
emitted. -/
theorem toast_iff_submit_error (ck : Checkout) (s : CompState) (st : ActionStatus) :
    Action.toastError ∈ (step ck s (Event.formSubmit st)).2 ↔ st = ActionStatus.error := by
  cases st <;> simp [step]

/-- C4: changing the selected country to a different value whose
`split('-')[1]` part is a decimal numeral triggers exactly one
`getShippingStates` call, with `Number` of that part as argument; an empty
value or one without an id part triggers no call. -/
theorem country_change_fetch_behavior :
    (∀ (ck : Checkout) (s : CompState) (v d : String) (n : Nat),
      v ≠ s.fv.country →
      countryIdPart v = some d →
      jsNumberNat d = some n →
      (step ck s (Event.selectCountry v)).2.filter Action.isStatesCall =
        [Action.callGetShippingStates (some n)]) ∧
    (∀ (ck : Checkout) (s : CompState) (v : String),
      (v = "" ∨ truthyStr (countryIdPart v) = false) →
      (step ck s (Event.selectCountry v)).2.filter Action.isStatesCall = []) := by
  constructor
  · intro ck s v d n hne hd hn
    have hdne : d ≠ "" := by
      intro h
      subst h
      simp [jsNumberNat] at hn
    have htr : truthyStr (countryIdPart v) = true := by
      rw [hd]
      simpa [truthyStr] using hdne
    have hv : v ≠ "" := truthy_country_ne_empty htr
    have htrd : truthyStr (some d) = true := by simpa [truthyStr] using hdne
    have harg : countryEffectFetch v = some (some n) := by
      simp [countryEffectFetch, hv, htr, hd, hn, htrd]
    have hbne : (v != s.fv.country) = true := by simpa using hne
    by_cases hr : (s.fv.country != "") = true <;>
      simp [step, selectCountryStep, htr, hr, hbne, harg,
        setFormValues_country_only, setFormValues_reset, Action.isStatesCall,
        Bool.not_eq_true] at *
  · intro ck s v hv
    have htr : truthyStr (countryIdPart v) = false := by
      rcases hv with h | h
      · subst h
        decide
      · exact h
    by_cases hr : (s.fv.country != "") = true <;>
      by_cases hc : (("" : String) != s.fv.country) = true <;>
      simp [step, selectCountryStep, htr, hr, hc, countryEffectFetch,
        setFormValues_country_only, setFormValues_reset, Action.isStatesCall,
        Bool.not_eq_true] at *

/-- C4 witness: selecting `"US-1"` over an empty current country issues the
single call with argument `1`; selecting the id-less `"US"` issues none. -/
theorem country_change_fetch_behavior_witness :
    (step ⟨"chk-1", none, none⟩ ⟨⟨"", some [], "", "", ""⟩, []⟩
        (Event.selectCountry "US-1")).2.filter Action.isStatesCall =
      [Action.callGetShippingStates (some 1)] ∧
    (step ⟨"chk-1", none, none⟩ ⟨⟨"", some [], "", "", ""⟩, []⟩
        (Event.selectCountry "US")).2.filter Action.isStatesCall = [] :=
  ⟨country_change_fetch_behavior.1 ⟨"chk-1", none, none⟩ ⟨⟨"", some [], "", "", ""⟩, []⟩
      "US-1" "1" 1 (by decide) (by decide) (by decide),
   country_change_fetch_behavior.2 ⟨"chk-1", none, none⟩ ⟨⟨"", some [], "", "", ""⟩, []⟩
      "US" (Or.inr (by decide))⟩

/-- C6: every submission calls `submitShippingInfo` with the checkout's
`entityId` as `checkoutId`, the cart's physical line items mapped to
`lineItemEntityId`/`quantity` pairs (empty when the cart is absent), and the
selected consignment's `entityId` as `shippingId` (empty string when no
consignment exists); this payload is emitted on each submit step. -/
theorem submit_payload_matches_claim :
    (∀ ck : Checkout, submitArgs ck = claimSubmitArgs ck) ∧
    (∀ (ck : Checkout) (s : CompState) (st : ActionStatus),
      (step ck s (Event.formSubmit st)).2.head? =
        some (Action.callSubmitShippingInfo (submitArgs ck))) := by
  constructor
  · intro ck
    unfold submitArgs claimSubmitArgs
    cases hc : ck.cart <;> cases hs : shippingConsignment ck <;> simp [hc, hs]
  · intro ck s st
    cases st <;> simp [step]

/-- C8: when the current country value is non-empty, a country selection
resets `states` to `[]` and `state`, `city`, `postcode` to `''` and invokes
`hideShippingOptions`; when the current country value is empty, the
selection changes only the `country` field and `hideShippingOptions` is not
invoked. -/
theorem country_reselect_frame (ck : Checkout) (s : CompState) (v : String) :
    (s.fv.country ≠ "" →
      (step ck s (Event.selectCountry v)).1.fv.states = some [] ∧
      (step ck s (Event.selectCountry v)).1.fv.state = "" ∧
      (step ck s (Event.selectCountry v)).1.fv.city = "" ∧
      (step ck s (Event.selectCountry v)).1.fv.postcode = "" ∧
      Action.hideShippingOptions ∈ (step ck s (Event.selectCountry v)).2) ∧
    (s.fv.country = "" →
      (step ck s (Event.selectCountry v)).1.fv.states = s.fv.states ∧
      (step ck s (Event.selectCountry v)).1.fv.state = s.fv.state ∧
      (step ck s (Event.selectCountry v)).1.fv.city = s.fv.city ∧
      (step ck s (Event.selectCountry v)).1.fv.postcode = s.fv.postcode ∧
      Action.hideShippingOptions ∉ (step ck s (Event.selectCountry v)).2) := by
  have hstep : step ck s (Event.selectCountry v) = selectCountryStep s v := rfl
  have hfv := selectCountryStep_fv s v
  constructor
  · intro h
    have hr : (s.fv.country != "") = true := by simpa using h
    rw [hr] at hfv
    simp only [if_true, ite_true] at hfv
    rw [hstep, hfv]
    exact ⟨rfl, rfl, rfl, rfl, selectCountryStep_hide_of_reset s v h⟩
  · intro h
    have hr : (s.fv.country != "") = false := by simp [h]
    rw [hr] at hfv
    simp only [Bool.false_eq_true, if_false, ite_false] at hfv
    rw [hstep, hfv]
    exact ⟨rfl, rfl, rfl, rfl, selectCountryStep_no_hide s v h⟩

/-- C8 witness: a reselect over current country `"US-1"` resets the fields
and hides the shipping options; a selection over an empty current country
leaves every field but `country` unchanged and does not hide them. -/
theorem country_reselect_frame_witness :
    (step ⟨"chk-1", none, none⟩
        ⟨⟨"US-1", some [⟨10, "Alabama", "AL", 1⟩], "Alabama", "Tulsa", "74008"⟩, []⟩
        (Event.selectCountry "CA-2")).1.fv.states = some [] ∧
    Action.hideShippingOptions ∈
      (step ⟨"chk-1", none, none⟩
        ⟨⟨"US-1", some [⟨10, "Alabama", "AL", 1⟩], "Alabama", "Tulsa", "74008"⟩, []⟩
        (Event.selectCountry "CA-2")).2 ∧
    (step ⟨"chk-1", none, none⟩ ⟨⟨"", some [], "x", "y", "z"⟩, []⟩
        (Event.selectCountry "CA-2")).1.fv.city = "y" ∧
    Action.hideShippingOptions ∉
      (step ⟨"chk-1", none, none⟩ ⟨⟨"", some [], "x", "y", "z"⟩, []⟩
        (Event.selectCountry "CA-2")).2 :=
  ⟨(country_reselect_frame ⟨"chk-1", none, none⟩
      ⟨⟨"US-1", some [⟨10, "Alabama", "AL", 1⟩], "Alabama", "Tulsa", "74008"⟩, []⟩
      "CA-2").1 (by decide) |>.1,
   (country_reselect_frame ⟨"chk-1", none, none⟩
      ⟨⟨"US-1", some [⟨10, "Alabama", "AL", 1⟩], "Alabama", "Tulsa", "74008"⟩, []⟩
      "CA-2").1 (by decide) |>.2.2.2.2,
   (country_reselect_frame ⟨"chk-1", none, none⟩ ⟨⟨"", some [], "x", "y", "z"⟩, []⟩
      "CA-2").2 rfl |>.2.2.1,
   (country_reselect_frame ⟨"chk-1", none, none⟩ ⟨⟨"", some [], "x", "y", "z"⟩, []⟩
      "CA-2").2 rfl |>.2.2.2.2⟩

/-- C9: the reducer merges an update record into the current state: every field the
update leaves out keeps its previous value, and in particular an `editCity`
step changes neither `country`, `states`, `state`, nor `postcode`. -/
theorem setFormValues_merge_frame :
    (∀ (cur : FormValues) (upd : FormUpdate),
      (upd.country = none → (setFormValues cur upd).country = cur.country) ∧
      (upd.states = none → (setFormValues cur upd).states = cur.states) ∧
      (upd.state = none → (setFormValues cur upd).state = cur.state) ∧
      (upd.city = none → (setFormValues cur upd).city = cur.city) ∧
      (upd.postcode = none → (setFormValues cur upd).postcode = cur.postcode)) ∧
    (∀ (ck : Checkout) (s : CompState) (c : String),
      (step ck s (Event.editCity c)).1.fv.country = s.fv.country ∧
      (step ck s (Event.editCity c)).1.fv.states = s.fv.states ∧
      (step ck s (Event.editCity c)).1.fv.state = s.fv.state ∧
      (step ck s (Event.editCity c)).1.fv.postcode = s.fv.postcode ∧
      (step ck s (Event.editCity c)).1.fv.city = c) := by
  constructor
  · intro cur upd
    refine ⟨fun h => ?_, fun h => ?_, fun h => ?_, fun h => ?_, fun h => ?_⟩ <;>
      simp [setFormValues, h]
  · intro ck s c
    simp [step, setFormValues, FormUpdate.empty]

/-- C9 witness: a city-only update of a concrete form state keeps the other
four fields. -/
theorem setFormValues_merge_frame_witness :
    (setFormValues ⟨"US-1", some [], "Alabama", "Tulsa", "74008"⟩
        ⟨none, none, none, some "Austin", none⟩).country = "US-1" ∧
    (setFormValues ⟨"US-1", some [], "Alabama", "Tulsa", "74008"⟩
        ⟨none, none, none, some "Austin", none⟩).states = some [] ∧
    (setFormValues ⟨"US-1", some [], "Alabama", "Tulsa", "74008"⟩
        ⟨none, none, none, some "Austin", none⟩).state = "Alabama" ∧
    (setFormValues ⟨"US-1", some [], "Alabama", "Tulsa", "74008"⟩
        ⟨none, none, none, some "Austin", none⟩).postcode = "74008" :=
  ⟨(setFormValues_merge_frame.1 _ _).1 rfl,
   (setFormValues_merge_frame.1 _ _).2.1 rfl,
   (setFormValues_merge_frame.1 _ _).2.2.1 rfl,
   (setFormValues_merge_frame.1 _ _).2.2.2.2 rfl⟩

/-- C5 counterexample: the claim fails as stated. The country effect never
cancels an in-flight fetch, so after two rapid country selections the first
fetch can resolve (here with Alabama) while the second is still in flight,
leaving a lookup outstanding with a non-empty `states` list. -/
theorem in_flight_states_counterexample :
    ¬ (∀ (ck : Checkout) (cs : List ShippingCountry) (evs : List Event),
        (∀ e ∈ evs, selectableEvent e = true) →
        (run ck (initState ck cs) evs).pending ≠ [] →
        (run ck (initState ck cs) evs).fv.states = some []) := by
  intro h
  have hc := h ⟨"chk-1", none, none⟩ [⟨1, "US", "United States"⟩, ⟨2, "CA", "Canada"⟩]
      [Event.selectCountry "US-1", Event.selectCountry "CA-2",
       Event.fetchResolved 0 ⟨ActionStatus.success, some [⟨10, "Alabama", "AL", 1⟩]⟩]
      (by decide) (by decide)
  exact absurd hc (by decide)

/-- C5 (amended): provided every selected country value carries an id part
(as every rendered option does) and at most one state lookup is ever in
flight, the `states` field is the empty array whenever a lookup is in flight
(from initialization or from a country change until it resolves); and over
any behaviour, `states` can turn `null` only by a lookup resolving without
success-and-data. -/
theorem states_empty_while_lookup_in_flight
    (ck : Checkout) (cs : List ShippingCountry) (evs : List Event)
    (hsel : ∀ e ∈ evs, selectableEvent e = true)
    (hone : ∀ i : Nat, (run ck (initState ck cs) (evs.take i)).pending.length ≤ 1) :
    ((run ck (initState ck cs) evs).pending ≠ [] →
      (run ck (initState ck cs) evs).fv.states = some []) ∧
    (∀ (s : CompState) (e : Event),
      (step ck s e).1.fv.states = none →
      s.fv.states = none ∨
      ∃ idx r, e = Event.fetchResolved idx r ∧
        ¬(r.status = ActionStatus.success ∧ r.data.isSome = true)) :=
  ⟨(statesInv_run ck evs (initState ck cs) (statesInv_init ck cs) hsel hone).2,
   fun s e h => states_none_source ck s e h⟩

/-- C5 witness: a single selection of `"US-1"` from an empty initial state
leaves one lookup in flight, and the in-flight `states` value is `[]`. -/
theorem states_empty_while_lookup_in_flight_witness :
    (run ⟨"chk-1", none, none⟩
        (initState ⟨"chk-1", none, none⟩ [⟨1, "US", "United States"⟩])
        [Event.selectCountry "US-1"]).pending ≠ [] ∧
    (run ⟨"chk-1", none, none⟩
        (initState ⟨"chk-1", none, none⟩ [⟨1, "US", "United States"⟩])
        [Event.selectCountry "US-1"]).fv.states = some [] := by
  have h := states_empty_while_lookup_in_flight ⟨"chk-1", none, none⟩
      [⟨1, "US", "United States"⟩] [Event.selectCountry "US-1"]
      (by decide)
      (fun i => by
        match i with
        | 0 => decide
        | 1 => decide
        | (n + 2) =>
          rw [List.take_of_length_le (by simp)]
          decide)
  exact ⟨by decide, h.1 (by decide)⟩

theorem selectCountryStep_act_shape (s : CompState) (v : String) :
    ∀ a ∈ (selectCountryStep s v).2,
      a = Action.hideShippingOptions ∨ ∃ arg, a = Action.callGetShippingStates arg := by
  intro a ha
  simp only [selectCountryStep] at ha
  repeat' split at ha
  all_goals
    simp only [List.mem_append, List.mem_singleton, List.mem_cons,
      List.not_mem_nil, or_false, false_or] at ha
  all_goals
    first
      | exact ha.elim
      | (rcases ha with rfl | rfl
         · exact Or.inl rfl
         · exact Or.inr ⟨_, rfl⟩)
      | (rcases ha with rfl
         first
           | exact Or.inl rfl
           | exact Or.inr ⟨_, rfl⟩)

/-- C7: no retries: a step emits a `getShippingStates` call only on a
country-selection event and a `submitShippingInfo` call only on a
form-submission event; resolution events — in particular failed lookups and
failed submissions — emit no call at all. -/
theorem no_retry_calls (ck : Checkout) (s : CompState) (e : Event) (a : Action)
    (ha : a ∈ (step ck s e).2) :
    ((∃ arg, a = Action.callGetShippingStates arg) → ∃ v, e = Event.selectCountry v) ∧
    ((∃ args, a = Action.callSubmitShippingInfo args) → ∃ st, e = Event.formSubmit st) := by
  cases e with
  | selectCountry v =>
    refine ⟨fun _ => ⟨v, rfl⟩, ?_⟩
    rintro ⟨args, rfl⟩
    rcases selectCountryStep_act_shape s v _ ha with h | ⟨arg, h⟩ <;> simp at h
  | fetchResolved idx r =>
    exfalso
    revert ha
    simp only [step]
    split <;> simp
  | editState v =>
    exact absurd ha (by simp [step])
  | editCity v =>
    exact absurd ha (by simp [step])
  | editPostcode v =>
    exact absurd ha (by simp [step])
  | formSubmit st =>
    refine ⟨?_, fun _ => ⟨st, rfl⟩⟩
    rintro ⟨arg, rfl⟩
    cases st <;> simp [step] at ha

/-- C7 witness: a concrete selection step emits the states call, and the
theorem pins that call to the selection event. -/
theorem no_retry_calls_witness :
    Action.callGetShippingStates (some 1) ∈
      (step ⟨"chk-1", none, none⟩ ⟨⟨"", some [], "", "", ""⟩, []⟩
        (Event.selectCountry "US-1")).2 ∧
    (∃ v, Event.selectCountry "US-1" = Event.selectCountry v) :=
  ⟨by decide,
   (no_retry_calls ⟨"chk-1", none, none⟩ ⟨⟨"", some [], "", "", ""⟩, []⟩
      (Event.selectCountry "US-1") (Action.callGetShippingStates (some 1))
      (by decide)).1 ⟨some 1, rfl⟩⟩

theorem shippingConsignment_eq_claim (ck : Checkout) :
    shippingConsignment ck = claimPrefilledConsignment ck := by
  unfold shippingConsignment claimPrefilledConsignment
  cases hl : ck.shippingConsignments with
  | none => simp [Option.orElse]
  | some l =>
    cases hf : l.find? (fun c => c.selectedShippingOption.isSome) with
    | none => simp [hf, Option.orElse]
    | some c => simp [hf, Option.orElse]

theorem selectedShippingCountry_eq_claim (ck : Checkout) (cs : List ShippingCountry) :
    (initialFormValues ck cs).country = claimInitialCountry ck cs := by
  show (match selectedShippingCountry ck cs with
        | some co => co.countryCode ++ "-" ++ toString co.id
        | none => "") = claimInitialCountry ck cs
  unfold selectedShippingCountry claimInitialCountry
  rw [shippingConsignment_eq_claim]
  cases hc : claimPrefilledConsignment ck with
  | none =>
    have hnone : cs.find? (fun _ : ShippingCountry => false) = none :=
      List.find?_eq_none.mpr (fun co _ => by simp)
    simp [hnone]
  | some cons =>
    have hp : (fun co : ShippingCountry =>
        some co.countryCode == (some cons).map (fun c => c.address.countryCode)) =
        (fun co : ShippingCountry => co.countryCode == cons.address.countryCode) :=
      funext (fun co => rfl)
    rw [hp]
    cases hf : cs.find? (fun co => co.countryCode == cons.address.countryCode) <;> simp [hf]

/-- C10: on initialization the pre-filled consignment is the first shipping
consignment having a `selectedShippingOption`, or otherwise the first
consignment; the initial country value is `<countryCode>-<id>` for the entry
of `shippingCountries` whose `countryCode` equals that consignment's address
`countryCode` (empty when no match or no consignment), and `state`, `city`
and `postcode` are initialized from that consignment's address fields or the
empty string. -/
theorem initial_form_values_match_claim (ck : Checkout) (cs : List ShippingCountry) :
    shippingConsignment ck = claimPrefilledConsignment ck ∧
    (initialFormValues ck cs).country = claimInitialCountry ck cs ∧
    (initialFormValues ck cs).state = claimInitialState ck ∧
    (initialFormValues ck cs).city = claimInitialCity ck ∧
    (initialFormValues ck cs).postcode = claimInitialPostcode ck := by
  refine ⟨shippingConsignment_eq_claim ck, selectedShippingCountry_eq_claim ck cs, ?_, ?_, ?_⟩ <;>
    simp only [initialFormValues, claimInitialState, claimInitialCity, claimInitialPostcode,
      shippingConsignment_eq_claim] <;>
    cases hc : claimPrefilledConsignment ck <;>
    simp [hc]

end ShippingForm
